import Mathlib

/-!
Verification development for the csv2sql import command.

The embedding mirrors, definition by definition, the Go source of the
repository (main.go and the file defining `ImportCmd`): flag validation
(`ValidateFlags`), the header-filtering loop of `Execute` (the labelled
`ColumnLoop`, here `transformColumns`), the bulk statement builder
(`parseBulkColumns`, split here into `rowTokens`, `bulkLoop` and
`parseBulkColumnsTokens` with the final `strings.Join` applied in
`parseBulkColumns`), the read/dispatch driver loop of `Execute`
(`execLoopF` / `runImport`), and the connection-permit protocol (the
buffered channel `available` of capacity `Concurrency`, embedded as the
transition system `GovStep`).

Stateful pieces become explicit state passing: the Go map field
`IgnoreColumnsMap_` is threaded as a `List Nat` of recorded positions, the
map `bulkItemMap` as a `List Nat` of seen keys, and `lastEntryKey` as a
`Nat` (the Go code uses the value `0` as its unset sentinel, and so does
the model).  64-bit arithmetic is `Nat` with explicit `% 2 ^ 64`.
-/

namespace Csv2Sql

/-- One csv record: an ordered sequence of text fields. -/
abbrev Row := List String

/-- UTF-8 encoding of one character, matching how Go iterates the bytes of a
string when hashing it. -/
def utf8Bytes (c : Char) : List Nat :=
  let n := c.toNat
  if n < 128 then [n]
  else if n < 2048 then [192 + n / 64, 128 + n % 64]
  else if n < 65536 then [224 + n / 4096, 128 + (n / 64) % 64, 128 + n % 64]
  else [240 + n / 262144, 128 + (n / 4096) % 64, 128 + (n / 64) % 64, 128 + n % 64]

/-- `fnv1a.HashString64` from segmentio/fasthash: 64-bit FNV-1a over the
UTF-8 bytes of the string, with wrapping 64-bit multiplication. -/
def hashString64 (s : String) : Nat :=
  ((s.data.map utf8Bytes).flatten).foldl
    (fun h b => ((h ^^^ b) * 1099511628211) % 2 ^ 64) 14695981039346656037

/-- The Duplicate Key the code computes for a row:
`fnv1a.HashString64(strings.Join(entry, ""))`. -/
def rowKey (r : Row) : Nat := hashString64 (String.join r)

/-- `strings.Split` for a single-character separator (the only separators the
code uses are `,` and `=`); auxiliary accumulator-based recursion. -/
def splitChar (sep : Char) : List Char → List Char → List String
  | acc, [] => [String.mk acc.reverse]
  | acc, c :: rest =>
    if c = sep then String.mk acc.reverse :: splitChar sep [] rest
    else splitChar sep (c :: acc) rest

/-- `strings.Split(s, sep)` for a one-character `sep`. -/
def goSplit (s : String) (sep : Char) : List String := splitChar sep [] s.data

/-- The `ImportCmd` flag structure.  The parsed ignore list `IgnoreColumns_`
and remap pairs `RemapColumns_` are fields, as in the source; the mutable
map field `IgnoreColumnsMap_` is threaded explicitly through the functions
that touch it. -/
structure ImportCmd where
  Table : String
  File : String
  Delim : String
  Db : String
  Concurrency : Int
  Bulk : Int
  SquashConsecutiveDups : Bool
  SquashAllDupsPerBulk : Bool
  IgnoreColumns : String
  IgnoreColumns_ : List String
  RemapColumns : String
  RemapColumns_ : List (String × String)
  IgnoreErrors : Bool

/-- Lookup in the remap table with Go map semantics (the last write to a key
wins); the pair list is built by appending, so the last matching pair is the
current binding. -/
def remapFind (m : List (String × String)) (k : String) : Option String :=
  ((m.filter (fun p => p.1 == k)).getLast?).map Prod.snd

/-- The remap-parsing loop of `ValidateFlags`: each comma-separated item is
split on `=`; fewer than two parts is a syntax error, otherwise the first
two parts form a binding. -/
def remapPairs : List String → List (String × String) → Except String (List (String × String))
  | [], acc => .ok acc
  | v :: rest, acc =>
    let xy := goSplit v '='
    if xy.length < 2 then
      .error "Remap Columns = invalid -> syntx is: column_x=column_y,column_a=column_b,..."
    else remapPairs rest (acc ++ [(xy.getD 0 "", xy.getD 1 "")])

/-- Parsing of the `--remap-columns` flag value. -/
def remapParse (s : String) : Except String (List (String × String)) :=
  if s = "" then .ok [] else remapPairs (goSplit s ',') []

/-- `ValidateFlags`: the checks in source order, then the derived ignore list
and remap table.  Note the concurrency and bulk checks are `< 0`, exactly as
in the source. -/
def ValidateFlags (c : ImportCmd) : Except String (List String × List (String × String)) :=
  if c.File = "" then .error "Please supply a --file"
  else if c.Table = "" then .error "Please supply a --table"
  else if c.Db = "" then .error "Please supply a --db (user:pass@host/db)"
  else if c.Concurrency < 0 then .error "Please supply a valid --concurrency (>0)"
  else if c.Bulk < 0 then .error "Please supply a valid --bulk (>0)"
  else
    let ign := if c.IgnoreColumns = "" then [] else goSplit c.IgnoreColumns ','
    match remapParse c.RemapColumns with
    | .error e => .error e
    | .ok m => .ok (ign, m)

/-- The header-filtering loop of `Execute` (label `ColumnLoop`).  First
argument after the command is the accumulated `IgnoreColumnsMap_` content.
A column matching the ignore list records `wk` — the index of the match in
the ignore LIST, exactly as the source writes `c.IgnoreColumnsMap_[wk] = true`
inside `for wk, w := range c.IgnoreColumns_` — and is excluded; otherwise the
remap table may rename it. -/
def transformColumns (c : ImportCmd) : List Nat → List String → List String × List Nat
  | dropSet, [] => ([], dropSet)
  | dropSet, v :: rest =>
    match (if c.IgnoreColumns ≠ "" then c.IgnoreColumns_.findIdx? (fun w => w == v) else none) with
    | some wk =>
      transformColumns c (if wk ∈ dropSet then dropSet else dropSet ++ [wk]) rest
    | none =>
      let col := if c.RemapColumns ≠ "" then (remapFind c.RemapColumns_ v).getD v else v
      let r := transformColumns c dropSet rest
      (col :: r.1, r.2)

/-- The inner `j` loop of `parseBulkColumns` over one row's fields: a field
whose index is in `IgnoreColumnsMap_` (when the ignore flag is set) is
skipped entirely; otherwise a `?` placeholder is emitted, followed by a comma
unless `j` is the last index of the row, and the field value is appended to
the argument list.  `n` is the row's field count `len(entry)`. -/
def rowTokens (c : ImportCmd) (dropSet : List Nat) (n : Nat) : Nat → List String → List String × List String
  | _, [] => ([], [])
  | j, jv :: rest =>
    if c.IgnoreColumns ≠ "" ∧ j ∈ dropSet then rowTokens c dropSet n (j + 1) rest
    else
      let r := rowTokens c dropSet n (j + 1) rest
      ("?" :: ((if j ≠ n - 1 then [","] else []) ++ r.1), jv :: r.2)

/-- The row loop of `parseBulkColumns`: per row, the Duplicate Key is hashed
only when a squash flag is set; `squash-all-dups-per-bulk` skips a row whose
key is in `bulkItemMap` (here `seen`) and records the key otherwise;
`squash-consecutive-dups` sets `lastEntryKey` when it is still `0` and skips
a row whose key equals it otherwise (the source never updates `lastEntryKey`
after that first assignment).  A kept row is preceded by a comma when its
index `i` in the original batch is nonzero. -/
def bulkLoop (c : ImportCmd) (dropSet : List Nat) : List Nat → Nat → Nat → List Row → List String × List String
  | _, _, _, [] => ([], [])
  | seen, lastKey, i, entry :: rest =>
    let entryKey := if c.SquashAllDupsPerBulk || c.SquashConsecutiveDups then rowKey entry else 0
    if c.SquashAllDupsPerBulk ∧ entryKey ∈ seen then
      bulkLoop c dropSet seen lastKey (i + 1) rest
    else
      let seen' := if c.SquashAllDupsPerBulk then entryKey :: seen else seen
      if c.SquashConsecutiveDups ∧ lastKey ≠ 0 ∧ entryKey = lastKey then
        bulkLoop c dropSet seen' lastKey (i + 1) rest
      else
        let lastKey' := if c.SquashConsecutiveDups ∧ lastKey = 0 then entryKey else lastKey
        let r := rowTokens c dropSet entry.length 0 entry
        let q := bulkLoop c dropSet seen' lastKey' (i + 1) rest
        ((if i ≠ 0 then [","] else []) ++ "(" :: (r.1 ++ ")" :: q.1), r.2 ++ q.2)

/-- The column-list head of the statement: each column, comma-separated. -/
def colTokens : List String → List String
  | [] => []
  | [col] => [col]
  | col :: rest => col :: "," :: colTokens rest

/-- `parseBulkColumns` before the final `strings.Join(query, " ")`: the token
list of the statement and the flattened argument list. -/
def parseBulkColumnsTokens (c : ImportCmd) (dropSet : List Nat) (columns : List String) (bulks : List Row) : List String × List String :=
  let r := bulkLoop c dropSet [] 0 0 bulks
  (("INSERT IGNORE INTO " ++ c.Table ++ " (") :: (colTokens columns ++ ") VALUES " :: r.1), r.2)

/-- `parseBulkColumns`: the joined statement text and the argument list. -/
def parseBulkColumns (c : ImportCmd) (dropSet : List Nat) (columns : List String) (bulks : List Row) : String × List String :=
  let r := parseBulkColumnsTokens c dropSet columns bulks
  (String.intercalate " " r.1, r.2)

/-- Outcome of one `reader.Read()`: a record, or a decode failure (which in
Go also carries whatever record value was returned alongside the error).
End of input is modelled by exhausting the list of results. -/
inductive ReadResult where
  | ok (r : Row)
  | err (r : Row)

/-- The record value a read returns.  The inner read loop of `Execute` only
compares the read error against `io.EOF`; any other error falls through to
`records = append(records, record)`, so the decode-failure record is
appended exactly like a clean one.  (The enclosing check
`if err != nil && err != io.EOF` tests the OUTER `err` variable — last set
by `db.Ping()` — because `record, err := reader.Read()` shadows it, so that
check can never fire on a read error.) -/
def payload : ReadResult → Row
  | .ok r => r
  | .err r => r

/-- The read/dispatch loop of `Execute`, fuelled (each iteration consumes at
least one input record, so `stream.length + 1` fuel is always enough).  One
iteration reads up to `Bulk` records, stops when none were read, derives the
columns and the `IgnoreColumnsMap_` content from `records[0]` on the first
iteration, and otherwise reuses `firstRowColumns`; it then builds the bulk
statement FROM THE WHOLE `records` slice (the first batch therefore includes
the header row) and dispatches it. -/
def execLoopF (c : ImportCmd) : Nat → List Nat → Option (List String) → List ReadResult → List (List String × List String)
  | 0, _, _, _ => []
  | fuel + 1, dropSet, firstRowColumns, stream =>
    if h : (stream.take c.Bulk.toNat).map payload = [] then []
    else
      match firstRowColumns with
      | none =>
        let cd := transformColumns c dropSet (((stream.take c.Bulk.toNat).map payload).head h)
        parseBulkColumnsTokens c cd.2 cd.1 ((stream.take c.Bulk.toNat).map payload)
          :: execLoopF c fuel cd.2 (some cd.1) (stream.drop c.Bulk.toNat)
      | some cs =>
        parseBulkColumnsTokens c dropSet cs ((stream.take c.Bulk.toNat).map payload)
          :: execLoopF c fuel dropSet (some cs) (stream.drop c.Bulk.toNat)

/-- A whole run of `Execute` over a decoded input stream: the list of
dispatched statements (token form, with argument lists) and the final
`insertions` count.  Every dispatched batch is executed by a worker that
sends exactly one callback, and the accounting loop increments `insertions`
once per callback, so the final count equals the number of dispatched
batches. -/
def runImport (c : ImportCmd) (stream : List ReadResult) : List (List String × List String) × Nat :=
  ((execLoopF c (stream.length + 1) [] none stream),
   (execLoopF c (stream.length + 1) [] none stream).length)

/-- Number of `(` tokens in a statement token list; every kept row of a
batch contributes exactly one such token (the statement head is a single
larger token ending in `(`, not a `(` token). -/
def numGroups (ts : List String) : Nat := ts.countP (fun t => t == "(")

/-- Dedup policy of the spec for squash-all-per-batch, stated in its words:
walking the batch in order, a row is dropped exactly when its Duplicate Key
already occurred among the earlier rows of the same batch; `prev` is the
list of earlier rows. -/
def squashAllSpec : List Row → List Row → List Row
  | _, [] => []
  | prev, r :: rest =>
    if rowKey r ∈ prev.map rowKey then squashAllSpec (prev ++ [r]) rest
    else r :: squashAllSpec (prev ++ [r]) rest

/-- State of the connection governor: `avail` is the number of permits in
the buffered channel `available`, `connections` the number of workers that
acquired a permit and whose completion callback has not yet been processed,
`insertions` the completed-batch counter. -/
structure GovState where
  avail : Nat
  connections : Nat
  insertions : Nat

/-- Transitions of the permit protocol with capacity `C`: the driver
receives a permit from `available` before spawning a worker (`acquire`,
enabled only when the channel is nonempty), and the single accounting
goroutine processes one completion callback, decrements the connection
count, increments `insertions`, and sends a permit back (`complete`,
enabled only when the channel has room). -/
inductive GovStep (C : Nat) : GovState → GovState → Prop where
  | acquire (s : GovState) : 0 < s.avail →
      GovStep C s ⟨s.avail - 1, s.connections + 1, s.insertions⟩
  | complete (s : GovState) : 0 < s.connections → s.avail < C →
      GovStep C s ⟨s.avail + 1, s.connections - 1, s.insertions + 1⟩

/-- Initial state: the channel is pre-filled with `C` permits, no workers. -/
def govInit (C : Nat) : GovState := ⟨C, 0, 0⟩

/-- States reachable by any interleaving of acquires and completions. -/
def GovReachable (C : Nat) (s : GovState) : Prop :=
  Relation.ReflTransGen (GovStep C) (govInit C) s

/-- A command value with every flag at its default except a table name, as a
base for the concrete scenarios. -/
def baseCmd : ImportCmd :=
  { Table := "t", File := "f", Delim := ",", Db := "d", Concurrency := 1, Bulk := 1,
    SquashConsecutiveDups := false, SquashAllDupsPerBulk := false,
    IgnoreColumns := "", IgnoreColumns_ := [], RemapColumns := "", RemapColumns_ := [],
    IgnoreErrors := false }

/-- Batch size 2, concurrency 1, no squash/ignore/remap - the end-to-end scenario. -/
def cfgC1 : ImportCmd := { baseCmd with Bulk := 2 }

/-- Batch size 3, used for the decode-failure scenario. -/
def cfgC8 : ImportCmd := { baseCmd with Bulk := 3 }

/-- squash-consecutive-dups active. -/
def cfgConsec : ImportCmd := { baseCmd with SquashConsecutiveDups := true, Bulk := 4 }

/-- squash-all-dups-per-bulk active. -/
def cfgSquashAll : ImportCmd := { baseCmd with SquashAllDupsPerBulk := true, Bulk := 5 }

/-- ignore-columns set to the single name `note`. -/
def cfgIgnoreNote : ImportCmd :=
  { baseCmd with IgnoreColumns := "note", IgnoreColumns_ := ["note"] }

/-- ignore-columns set to `a,b,c,note` (entries `a`, `b`, `c` match nothing). -/
def cfgIgnoreMany : ImportCmd :=
  { baseCmd with IgnoreColumns := "a,b,c,note", IgnoreColumns_ := ["a", "b", "c", "note"] }

/-- ignore-columns `b` together with remap-columns `a=b`. -/
def cfgRemapIgnore : ImportCmd :=
  { baseCmd with IgnoreColumns := "b", IgnoreColumns_ := ["b"], RemapColumns := "a=b", RemapColumns_ := [("a", "b")] }

/-- Required flags present but concurrency and bulk both zero. -/
def cfgZero : ImportCmd := { baseCmd with Concurrency := 0, Bulk := 0 }

end Csv2Sql

namespace Csv2Sql

lemma govStep_sum {C : Nat} {s t : GovState} (h : GovStep C s t)
    (hs : s.avail + s.connections = C) : t.avail + t.connections = C := by
  cases h with
  | acquire ha => dsimp only; omega
  | complete hc hf => dsimp only; omega

lemma govReachable_sum {C : Nat} {s : GovState} (h : GovReachable C s) :
    s.avail + s.connections = C := by
  induction h with
  | refl => simp [govInit]
  | tail _ hstep ih => exact govStep_sum hstep ih

lemma findIdx_beq_none {v : String} {l : List String} (h : v ∉ l) :
    l.findIdx? (fun w => w == v) = none := by
  refine List.findIdx?_eq_none_iff.mpr (fun x hx => ?_)
  rcases eq_or_ne x v with rfl | hne
  · exact absurd hx h
  · simp [hne]

lemma transformColumns_fixed (c : ImportCmd) :
    ∀ (cols : List String) (d : List Nat),
    (∀ n ∈ cols, n ∉ c.IgnoreColumns_ ∧
      (remapFind c.RemapColumns_ n = none ∨ remapFind c.RemapColumns_ n = some n)) →
    transformColumns c d cols = (cols, d) := by
  intro cols
  induction cols with
  | nil => intro d _; simp [transformColumns]
  | cons v rest ih =>
    intro d h
    have hv := h v (List.mem_cons_self _ _)
    have hcond : (if c.IgnoreColumns ≠ "" then c.IgnoreColumns_.findIdx? (fun w => w == v) else none) = none := by
      split <;> simp [findIdx_beq_none hv.1]
    have hcol : (if c.RemapColumns ≠ "" then (remapFind c.RemapColumns_ v).getD v else v) = v := by
      rcases hv.2 with h0 | h0 <;> split <;> simp [h0]
    simp only [transformColumns, hcond]
    rw [ih d (fun n hn => h n (List.mem_cons_of_mem _ hn))]
    simp [hcol]

lemma rowTokens_items (c : ImportCmd) (h3 : c.IgnoreColumns = "") (d : List Nat) (n : Nat) :
    ∀ (l : List String) (j : Nat), (rowTokens c d n j l).2 = l := by
  intro l
  induction l with
  | nil => intro j; simp [rowTokens]
  | cons a t ih => intro j; simp [rowTokens, h3, ih]

lemma rowTokens_paren (c : ImportCmd) (d : List Nat) (n : Nat) :
    ∀ (l : List String) (j : Nat), ((rowTokens c d n j l).1).countP (fun t => t == "(") = 0 := by
  intro l
  induction l with
  | nil => intro j; simp [rowTokens]
  | cons a t ih =>
    intro j
    by_cases hij : c.IgnoreColumns ≠ "" ∧ j ∈ d
    · simp [rowTokens, hij, ih]
    · simp only [rowTokens, if_neg hij]
      split <;> simp [List.countP_cons, List.countP_append, ih]

lemma bulkLoop_cons_groups (c : ImportCmd) (d : List Nat) (entry : Row) (rest : List Row) :
    1 ≤ ((bulkLoop c d [] 0 0 (entry :: rest)).1).countP (fun t => t == "(") := by
  simp only [bulkLoop]
  have hc1 : ¬(c.SquashAllDupsPerBulk ∧
      (if c.SquashAllDupsPerBulk || c.SquashConsecutiveDups then rowKey entry else 0) ∈ ([] : List Nat)) := by
    simp
  have hc2 : ¬(c.SquashConsecutiveDups ∧ (0 : Nat) ≠ 0 ∧
      (if c.SquashAllDupsPerBulk || c.SquashConsecutiveDups then rowKey entry else 0) = 0) := by
    simp
  simp [hc1, hc2, List.countP_append, List.countP_cons]

end Csv2Sql

namespace Csv2Sql

lemma bulkLoop_ne_nil_groups (c : ImportCmd) (d : List Nat) (bulks : List Row) (h : bulks ≠ []) :
    1 ≤ ((bulkLoop c d [] 0 0 bulks).1).countP (fun t => t == "(") := by
  obtain ⟨e, r, rfl⟩ := List.exists_cons_of_ne_nil h
  exact bulkLoop_cons_groups c d e r

lemma execLoopF_groups (c : ImportCmd) :
    ∀ (fuel : Nat) (d : List Nat) (f : Option (List String)) (stream : List ReadResult)
      (p : List String × List String), p ∈ execLoopF c fuel d f stream → 1 ≤ numGroups p.1 := by
  intro fuel
  induction fuel with
  | zero => intro d f stream p hp; simp [execLoopF] at hp
  | succ m ih =>
    intro d f stream p hp
    simp only [execLoopF] at hp
    by_cases h : (stream.take c.Bulk.toNat).map payload = []
    · rw [dif_pos h] at hp
      simp at hp
    · rw [dif_neg h] at hp
      cases f with
      | none =>
        dsimp only at hp
        rcases List.mem_cons.mp hp with hpe | hpt
        · subst hpe
          have hb := bulkLoop_ne_nil_groups c
            (transformColumns c d (((stream.take c.Bulk.toNat).map payload).head h)).2
            ((stream.take c.Bulk.toNat).map payload) h
          simp only [numGroups, parseBulkColumnsTokens, List.countP_cons, List.countP_append]
          omega
        · exact ih _ _ _ _ hpt
      | some cs =>
        dsimp only at hp
        rcases List.mem_cons.mp hp with hpe | hpt
        · subst hpe
          have hb := bulkLoop_ne_nil_groups c d ((stream.take c.Bulk.toNat).map payload) h
          simp only [numGroups, parseBulkColumnsTokens, List.countP_cons, List.countP_append]
          omega
        · exact ih _ _ _ _ hpt

end Csv2Sql

namespace Csv2Sql

lemma bulkLoop_squashAll (c : ImportCmd) (h1 : c.SquashAllDupsPerBulk = true)
    (h2 : c.SquashConsecutiveDups = false) (h3 : c.IgnoreColumns = "") (d : List Nat) :
    ∀ (bulks : List Row) (seen : List Nat) (prev : List Row) (i : Nat),
    (∀ k, k ∈ seen ↔ k ∈ prev.map rowKey) →
    (bulkLoop c d seen 0 i bulks).2 = (squashAllSpec prev bulks).flatten
    ∧ ((bulkLoop c d seen 0 i bulks).1).countP (fun t => t == "(") = (squashAllSpec prev bulks).length := by
  intro bulks
  induction bulks with
  | nil => intro seen prev i _; simp [bulkLoop, squashAllSpec]
  | cons entry rest ih =>
    intro seen prev i hseen
    by_cases hk : rowKey entry ∈ seen
    · have hk' : rowKey entry ∈ prev.map rowKey := (hseen _).mp hk
      have hinv : ∀ k, k ∈ seen ↔ k ∈ (prev ++ [entry]).map rowKey := by
        intro k
        simp only [List.map_append, List.mem_append, List.map_cons, List.map_nil,
          List.mem_cons, List.not_mem_nil, or_false]
        constructor
        · intro hks; exact Or.inl ((hseen k).mp hks)
        · rintro (hkp | rfl)
          · exact (hseen k).mpr hkp
          · exact hk
      have hrec := ih seen (prev ++ [entry]) (i + 1) hinv
      simp only [bulkLoop, h1, h2, squashAllSpec, hk, hk']
      simpa [hk] using hrec
    · have hk' : rowKey entry ∉ prev.map rowKey := fun hc => hk ((hseen _).mpr hc)
      have hinv : ∀ k, k ∈ rowKey entry :: seen ↔ k ∈ (prev ++ [entry]).map rowKey := by
        intro k
        simp only [List.mem_cons, List.map_append, List.mem_append, List.map_cons,
          List.map_nil, List.not_mem_nil, or_false]
        constructor
        · rintro (rfl | hks)
          · exact Or.inr rfl
          · exact Or.inl ((hseen k).mp hks)
        · rintro (hkp | rfl)
          · exact Or.inr ((hseen k).mpr hkp)
          · exact Or.inl rfl
      have hrec := ih (rowKey entry :: seen) (prev ++ [entry]) (i + 1) hinv
      have hrt2 := rowTokens_items c h3 d entry.length entry 0
      have hrt1 := rowTokens_paren c d entry.length entry 0
      simp only [bulkLoop, h1, h2, squashAllSpec, hk, hk']
      simp [hk, hk', List.countP_append, List.countP_cons, hrt2, hrt1, hrec.1, hrec.2]

end Csv2Sql

namespace Csv2Sql

/-- Claim C1.  The claim states that for header `id,name`, data rows
`[1,"x"]` and `[2,"y"]`, table `t`, batch size 2 and no options, exactly one
`INSERT IGNORE INTO t (id, name) VALUES (?, ?), (?, ?)` is issued with
arguments `[1,"x",2,"y"]` and the completed-batch count is 1.  This theorem
evaluates the embedded code at exactly that input and shows what it really
does: the first batch comprises the header row itself plus the first data
row (the header row IS dispatched as data, with arguments `id,name`), a
second batch carries `[2,"y"]`, and 2 insertions are counted. -/
theorem c1_code_behavior :
    runImport cfgC1 [.ok ["id", "name"], .ok ["1", "x"], .ok ["2", "y"]] =
      ([(["INSERT IGNORE INTO t (", "id", ",", "name", ") VALUES ", "(", "?", ",", "?", ")", ",", "(", "?", ",", "?", ")"], ["id", "name", "1", "x"]),
        (["INSERT IGNORE INTO t (", "id", ",", "name", ") VALUES ", "(", "?", ",", "?", ")"], ["2", "y"])], 2) := by
  decide

/-- Claim C2.  The claim states that squash-consecutive drops a row iff its
key equals the immediately preceding non-dropped row's key, so batch
`[A,A,B,A]` keeps `[A,B,A]`.  This theorem evaluates the embedded code at
that batch (A = `["a"]`, B = `["b"]`): the surviving arguments are
`["a","b"]`, i.e. the final A is also dropped, because the source never
updates `lastEntryKey` after its first assignment and therefore compares
every later row against the FIRST row's key. -/
theorem c2_code_behavior :
    (parseBulkColumnsTokens cfgConsec [] ["c1"] [["a"], ["a"], ["b"], ["a"]]).2 = ["a", "b"]
    ∧ numGroups (parseBulkColumnsTokens cfgConsec [] ["c1"] [["a"], ["a"], ["b"], ["a"]]).1 = 2 := by
  decide

/-- Claim C3.  The claim states that the drop-set holds raw-header indices
of ignored columns, so header `id,name,note` with ignore `note` drops
position 2 and row `[1,"x","z"]` contributes `[1,"x"]`.  This theorem
evaluates the embedded code: the recorded position is `0` — the index of
`note` in the ignore LIST (`wk` in `for wk, w := range c.IgnoreColumns_`),
not its index 2 in the header — and the row therefore contributes
`["x","z"]`. -/
theorem c3_code_behavior :
    transformColumns cfgIgnoreNote [] ["id", "name", "note"] = (["id", "name"], [0])
    ∧ (parseBulkColumnsTokens cfgIgnoreNote [0] ["id", "name"] [["1", "x", "z"]]).2 = ["x", "z"] := by
  decide

/-- Claim C4.  The claim states every placeholder group has exactly (raw
column count − dropped column count) placeholders.  This theorem evaluates
the embedded code at header `id,note` with ignore list `a,b,c,note`: the
transform drops one column (`note`, raw count 2, dropped count 1, so the
claim demands 1 placeholder), but the recorded drop position is 3 (the
ignore-list index of `note`), which matches no field index of a 2-field
row, so the single group carries 2 placeholders. -/
theorem c4_code_behavior :
    transformColumns cfgIgnoreMany [] ["id", "note"] = (["id"], [3])
    ∧ numGroups (bulkLoop cfgIgnoreMany [3] [] 0 0 [["1", "z"]]).1 = 1
    ∧ ((bulkLoop cfgIgnoreMany [3] [] 0 0 [["1", "z"]]).1).countP (fun t => t == "?") = 2 := by
  decide

/-- Claim C5.  With squash-all-per-batch active, a row of a batch is dropped
iff an earlier row of the same batch has the same Duplicate Key; first
occurrences are kept in order.  The code's argument list equals the
flattened field lists of exactly the spec-side survivors `squashAllSpec`,
the number of emitted placeholder groups equals the number of survivors,
and the batch `[A,B,A,C,B]` yields survivors `[A,B,C]`. -/
theorem c5_squash_all_per_batch (cols : List String) (bulks : List Row) :
    (parseBulkColumnsTokens cfgSquashAll [] cols bulks).2 = (squashAllSpec [] bulks).flatten
    ∧ ((bulkLoop cfgSquashAll [] [] 0 0 bulks).1).countP (fun t => t == "(") = (squashAllSpec [] bulks).length
    ∧ (parseBulkColumnsTokens cfgSquashAll [] ["c1"] [["a"], ["b"], ["a"], ["c"], ["b"]]).2 = ["a", "b", "c"] := by
  have main := bulkLoop_squashAll cfgSquashAll rfl rfl rfl [] bulks [] [] 0 (by simp)
  refine ⟨?_, main.2, by decide⟩
  simpa [parseBulkColumnsTokens] using main.1

/-- Claim C6.  At every state reachable by any interleaving of permit
acquisitions (driver receives from the `available` channel before spawning
a worker) and completions (the accounting loop returns a permit), the
number of workers holding a Connection Slot is at most the configured
concurrency `C`. -/
theorem c6_connections_le_concurrency (C : Nat) (s : GovState) (h : GovReachable C s) :
    s.connections ≤ C := by
  have := govReachable_sum h
  omega

/-- Witness for C6 at `C = 2` after one acquisition. -/
theorem c6_connections_le_concurrency_witness :
    GovReachable 2 ⟨1, 1, 0⟩ ∧ (GovState.mk 1 1 0).connections ≤ 2 :=
  ⟨Relation.ReflTransGen.single (GovStep.acquire ⟨2, 0, 0⟩ (by decide)),
   c6_connections_le_concurrency 2 ⟨1, 1, 0⟩
     (Relation.ReflTransGen.single (GovStep.acquire ⟨2, 0, 0⟩ (by decide)))⟩

/-- Claim C7.  A statement with zero value groups is never dispatched to a
Batch Insert Worker: every statement the driver loop emits comes from a
nonempty record batch, whose first row always survives the dedup filter and
contributes a group, so a zero-group statement cannot occur among the
dispatched ones. -/
theorem c7_zero_group_statement_never_dispatched (c : ImportCmd) (stream : List ReadResult)
    (p : List String × List String) (h : numGroups p.1 = 0) :
    p ∉ (runImport c stream).1 := by
  intro hp
  have h1 := execLoopF_groups c (stream.length + 1) [] none stream p (by simpa [runImport] using hp)
  omega

/-- Witness for C7: the empty statement has zero groups and is not among the
statements dispatched for a one-record input. -/
theorem c7_zero_group_statement_never_dispatched_witness :
    numGroups (([], []) : List String × List String).1 = 0
    ∧ (([], []) : List String × List String) ∉ (runImport baseCmd [.ok ["a"]]).1 :=
  ⟨rfl, c7_zero_group_statement_never_dispatched baseCmd [.ok ["a"]] ([], []) rfl⟩

/-- Claim C8.  The claim states a decode failure other than clean
end-of-input aborts the run and its record is never appended to the batch.
This theorem evaluates the embedded read loop on a stream whose second read
fails: the failed read's record `["1"]` is appended to the batch like any
other (only `io.EOF` is tested inside the loop; the enclosing
`err != nil && err != io.EOF` check reads the shadowed outer variable), the
batch is dispatched, and the run completes normally with 1 insertion. -/
theorem c8_code_behavior :
    runImport cfgC8 [.ok ["id"], .err ["1"], .ok ["2"]] =
      ([(["INSERT IGNORE INTO t (", "id", ") VALUES ", "(", "?", ")", ",", "(", "?", ")", ",", "(", "?", ")"], ["id", "1", "2"])], 1) := by
  decide

/-- Claim C9.  The claim states concurrency and bulk must be strictly
positive, with 0 rejected before any I/O.  This theorem evaluates
`ValidateFlags` with concurrency = 0 and bulk = 0 (all required flags
present): validation succeeds, because the source checks `< 0` even though
its own error text says `(>0)`. -/
theorem c9_code_behavior : ValidateFlags cfgZero = .ok ([], []) := by rfl

/-- Claim C10, counterexample.  With ignore set `{b}` and remap `a → b`,
applying the Column Transformer to the Effective Header `["b"]` produced
from raw header `["a"]` drops the remapped name and changes both the header
and the drop-set, so the transformer is not idempotent as claimed. -/
theorem c10_not_idempotent :
    transformColumns cfgRemapIgnore (transformColumns cfgRemapIgnore [] ["a"]).2
        (transformColumns cfgRemapIgnore [] ["a"]).1
      ≠ transformColumns cfgRemapIgnore [] ["a"] := by
  decide

/-- Claim C10, amended.  The Column Transformer is idempotent provided no
name of the produced Effective Header is in the ignore list or remapped to
a different name: under that proviso a second application returns the same
Effective Header and the same accumulated drop-set. -/
theorem c10_transform_idempotent_amended (c : ImportCmd) (raw : List String)
    (h : ∀ n ∈ (transformColumns c [] raw).1, n ∉ c.IgnoreColumns_ ∧
      (remapFind c.RemapColumns_ n = none ∨ remapFind c.RemapColumns_ n = some n)) :
    transformColumns c (transformColumns c [] raw).2 (transformColumns c [] raw).1
      = transformColumns c [] raw :=
  (transformColumns_fixed c (transformColumns c [] raw).1 (transformColumns c [] raw).2 h).trans
    (Prod.mk.eta)

/-- Witness for the amended C10 at ignore `note`, raw header `id,name,note`. -/
theorem c10_transform_idempotent_amended_witness :
    (∀ n ∈ (transformColumns cfgIgnoreNote [] ["id", "name", "note"]).1,
      n ∉ cfgIgnoreNote.IgnoreColumns_ ∧
        (remapFind cfgIgnoreNote.RemapColumns_ n = none ∨ remapFind cfgIgnoreNote.RemapColumns_ n = some n))
    ∧ transformColumns cfgIgnoreNote (transformColumns cfgIgnoreNote [] ["id", "name", "note"]).2
          (transformColumns cfgIgnoreNote [] ["id", "name", "note"]).1
        = transformColumns cfgIgnoreNote [] ["id", "name", "note"] :=
  ⟨by decide, c10_transform_idempotent_amended cfgIgnoreNote ["id", "name", "note"] (by decide)⟩

end Csv2Sql
